import Mathlib

/-!
Shallow embedding of the SubTrack Alert Engine
(`backend/src/modules/alerts/alerts.service.ts`, served from
`src/backend/src/modules/users/users.controller.ts` in this snapshot, and
`backend/src/worker.ts`).

Instants are integer milliseconds since the Unix epoch.  Timezones are
fixed UTC offsets in milliseconds (`local = utc + offset`); the process
timezone that JavaScript `Date.prototype.setHours` and `date-fns`
`format` operate in is the explicit parameter `procOff`.  Outbound HTTP
and the database are modelled by explicit effect records: each call of
`sendAlert` consumes a `CallEffects` value describing the outcome of the
webhook POST and of the two possible `alertLog.update` writes; a thrown
JavaScript exception is an `Except.error` carrying the message together
with the storage state at the moment of the throw (the database keeps
the rows that were already written).
-/

/-- Prisma enum `AlertRuleType`. -/
inductive AlertRuleType where
  | DAYS_14
  | DAYS_7
  | DAYS_3
  | TOMORROW
  | OVERDUE
  | MONTHLY_SUMMARY
  | DATA_QUALITY
deriving DecidableEq, Repr

/-- Prisma enum `AlertStatus`. -/
inductive AlertStatus where
  | PENDING
  | SENT
  | FAILED
deriving DecidableEq, Repr

/-- Prisma enum `AlertChannelType`. -/
inductive AlertChannelType where
  | GOOGLE_CHAT
  | SLACK
  | WEBHOOK
deriving DecidableEq, Repr

/-- One millisecond-precision calendar day, as used by `setHours(0,0,0,0)`
and `setHours(23,59,59,999)`. -/
def msPerDay : Int := 86400000

/-- `date-fns` `addDays` on a fixed-offset timeline. -/
def addDays (t : Int) (n : Int) : Int := t + n * msPerDay

/-- `new Date(t).setHours(0,0,0,0)` evaluated in the timezone with UTC
offset `off` (milliseconds): the UTC instant of local midnight of the
local day containing `t`. -/
def startOfDayAt (off : Int) (t : Int) : Int :=
  ((t + off) / msPerDay) * msPerDay - off

/-- Row of the `AlertSettings` table (the fields the engine reads). -/
structure AlertSettings where
  enable14Days : Bool
  enable7Days : Bool
  enable3Days : Bool
  enableTomorrow : Bool
  enableOverdue : Bool
  enableMonthlySummary : Bool
  enableDataQuality : Bool
  quietHoursStart : Option String
  quietHoursEnd : Option String
  timezone : String
deriving DecidableEq, Repr

/-- Row of the `AlertChannel` table (the fields the engine reads). -/
structure AlertChannel where
  id : String
  tenantId : String
  type : AlertChannelType
  webhookUrl : String
  isActive : Bool
deriving DecidableEq, Repr

/-- Row of the `Subscription` table (the fields the engine reads). -/
structure Subscription where
  id : String
  tenantId : String
  status : String
  nextRenewalDate : Int
  ownerId : Option String
  departmentId : Option String
  costCenter : Option String
deriving DecidableEq, Repr

/-- Row of the `AlertLog` table. -/
structure AlertLog where
  id : Nat
  tenantId : String
  subscriptionId : Option String
  ruleType : AlertRuleType
  dueDate : Int
  channelId : String
  status : AlertStatus
  responseCode : Option Nat
  responseBody : Option String
  errorMessage : Option String
  createdAt : Int
  sentAt : Option Int
deriving DecidableEq, Repr

/-- Row of the `Tenant` table (the fields the worker reads). -/
structure Tenant where
  id : String
  name : String
  isActive : Bool
deriving DecidableEq, Repr

/-- The observable engine state: the `AlertLog` table (with the
autoincrement id counter) and the trace of webhook URLs POSTed to, in
order. -/
structure St where
  logs : List AlertLog
  nextId : Nat
  posts : List String
deriving DecidableEq, Repr

/-- The empty initial state. -/
def st0 : St := { logs := [], nextId := 0, posts := [] }

/-- `prisma.alertLog.update({ where: { id } })`. -/
def updateLog (st : St) (i : Nat) (f : AlertLog → AlertLog) : St :=
  { st with logs := st.logs.map fun l => if l.id = i then f l else l }

/-- All stored log ids are below the autoincrement counter (true of every
state the engine produces from `st0`). -/
def idsFresh (st : St) : Bool :=
  st.logs.all fun l => decide (l.id < st.nextId)

/-- Outcomes of the external effects of one `sendAlert` call: the webhook
POST (`.ok (statusCode, body)` or a rejected fetch with an error
message), and the two possible `alertLog.update` writes (`none` means the
write succeeds, `some m` means it throws with message `m`). -/
structure CallEffects where
  dispatch : Except String (Nat × String)
  finalize : Option String
  errorWrite : Option String
deriving Repr

/-- Effects environment for a run: the `CallEffects` of the `sendAlert`
call for a given (subscription id, channel id) pair. -/
def Oracle : Type := String → String → CallEffects

/-- Result of a JavaScript async call: normal return, or a thrown
exception carrying its message and the storage state at the throw. -/
abbrev RunRes (α : Type) : Type := Except (String × St) α

/-- JavaScript string comparison (`<=` on strings is lexicographic by
code unit), on the underlying character lists. -/
def charListLe : List Char → List Char → Bool
  | [], _ => true
  | _ :: _, [] => false
  | a :: as, b :: bs =>
    if a.toNat < b.toNat then true
    else if b.toNat < a.toNat then false
    else charListLe as bs

/-- JavaScript `a <= b` on strings. -/
def jsLE (a b : String) : Bool := charListLe a.data b.data

/-- JavaScript truthiness test `!x` for a nullable string column:
`null`/`undefined` and the empty string are falsy. -/
def isFalsy : Option String → Bool
  | none => true
  | some s => s.data.isEmpty

/-- `AlertsService.isInQuietHours(settings)`.  The ambient
`format(new Date(), 'HH:mm')` — the current time of day in the process
timezone — is passed explicitly as `currentTime`. -/
def isInQuietHours (settings : AlertSettings) (currentTime : String) : Bool :=
  if isFalsy settings.quietHoursStart || isFalsy settings.quietHoursEnd then
    false
  else
    let start := settings.quietHoursStart.getD ""
    let stop := settings.quietHoursEnd.getD ""
    if jsLE start stop then
      jsLE start currentTime && jsLE currentTime stop
    else
      jsLE start currentTime || jsLE currentTime stop

/-- `AlertsService.sendGoogleChatAlert`: POST the card to the channel's
webhook URL and report `{ success: response.ok, statusCode, body }`;
`response.ok` is true exactly for a 2xx status.  A rejected fetch
propagates as an exception to the caller. -/
def sendGoogleChatAlert (webhookUrl : String) (outcome : Except String (Nat × String))
    (st : St) : St × Except String (Bool × Nat × String) :=
  ({ st with posts := st.posts ++ [webhookUrl] },
   match outcome with
   | .ok (code, body) => .ok (decide (200 ≤ code ∧ code ≤ 299), code, body)
   | .error e => .error e)

/-- The tail of `AlertsService.sendAlert` after the PENDING row exists:
the `try` block's final `alertLog.update` to SENT/FAILED, and the `catch`
block that logs the error and attempts an update to FAILED with the error
message.  `r` is the result of the dispatch `switch` (`.error` when the
dispatch threw). -/
def finalizeAlert (logId : Nat) (wall : Int) (r : Except String (Bool × Nat × String))
    (eff : CallEffects) (st : St) : RunRes St :=
  match r with
  | .ok (succ, code, body) =>
    match eff.finalize with
    | none =>
      .ok (updateLog st logId fun l =>
        { l with
          status := if succ then AlertStatus.SENT else AlertStatus.FAILED
          responseCode := some code
          responseBody := some body
          sentAt := if succ then some wall else none })
    | some m =>
      match eff.errorWrite with
      | none =>
        .ok (updateLog st logId fun l =>
          { l with status := AlertStatus.FAILED, errorMessage := some m })
      | some m2 => .error (m2, st)
  | .error e =>
    match eff.errorWrite with
    | none =>
      .ok (updateLog st logId fun l =>
        { l with status := AlertStatus.FAILED, errorMessage := some e })
    | some m2 => .error (m2, st)

/-- `AlertsService.sendAlert`: create a PENDING `AlertLog` row, dispatch
according to the channel type (Slack and generic webhooks are TODO stubs
that leave `success=false, responseCode=0, responseBody=''`), then
finalize.  `wall` is the wall clock used for `createdAt`/`sentAt`.
`pendingLog` is the PENDING row `alertLog.create` inserts. -/
def pendingLog (channel : AlertChannel) (sub : Subscription) (ruleType : AlertRuleType)
    (dueDate wall : Int) (i : Nat) : AlertLog :=
  { id := i
    tenantId := channel.tenantId
    subscriptionId := some sub.id
    ruleType := ruleType
    dueDate := dueDate
    channelId := channel.id
    status := AlertStatus.PENDING
    responseCode := none
    responseBody := none
    errorMessage := none
    createdAt := wall
    sentAt := none }

def sendAlert (channel : AlertChannel) (sub : Subscription) (ruleType : AlertRuleType)
    (dueDate : Int) (wall : Int) (eff : CallEffects) (st : St) : RunRes St :=
  let pending : AlertLog := pendingLog channel sub ruleType dueDate wall st.nextId
  let st1 : St := { st with logs := st.logs ++ [pending], nextId := st.nextId + 1 }
  let step : St × Except String (Bool × Nat × String) :=
    match channel.type with
    | AlertChannelType.GOOGLE_CHAT => sendGoogleChatAlert channel.webhookUrl eff.dispatch st1
    | AlertChannelType.SLACK => (st1, .ok (false, 0, ""))
    | AlertChannelType.WEBHOOK => (st1, .ok (false, 0, ""))
  finalizeAlert pending.id wall step.2 eff step.1

/-- The `for (const channel of channels) await sendAlert(...)` loop. -/
def sendToChannels (sub : Subscription) (ruleType : AlertRuleType) (dueDate : Int)
    (wall : Int) (oracle : Oracle) : List AlertChannel → St → RunRes St
  | [], st => .ok st
  | c :: cs, st =>
    match sendAlert c sub ruleType dueDate wall (oracle sub.id c.id) st with
    | .ok st' => sendToChannels sub ruleType dueDate wall oracle cs st'
    | .error e => .error e

/-- The dedup lookup of `processRenewalAlerts`: an existing `AlertLog`
with the same (tenant, subscription, rule type, due date) and status in
{SENT, PENDING}. -/
def logMatchesKey (tn sid : String) (rt : AlertRuleType) (dd : Int) (l : AlertLog) : Bool :=
  decide (l.tenantId = tn ∧ l.subscriptionId = some sid ∧ l.ruleType = rt ∧ l.dueDate = dd)

/-- All rows for a dedup key, any status. -/
def logsForKey (logs : List AlertLog) (tn sid : String) (rt : AlertRuleType) (dd : Int) :
    List AlertLog :=
  logs.filter (logMatchesKey tn sid rt dd)

/-- `alertLog.findFirst({ where: { tenantId, subscriptionId, ruleType,
dueDate, status: { in: [SENT, PENDING] } } })` is non-empty. -/
def hasBlocking (logs : List AlertLog) (tn sid : String) (rt : AlertRuleType) (dd : Int) :
    Bool :=
  logs.any fun l =>
    logMatchesKey tn sid rt dd l &&
      decide (l.status = AlertStatus.SENT ∨ l.status = AlertStatus.PENDING)

/-- The `for (const subscription of subscriptions)` loop of
`processRenewalAlerts`: skip a candidate with an existing SENT/PENDING
log for its key, otherwise send to every channel. -/
def renewalLoop (tn : String) (channels : List AlertChannel) (ruleType : AlertRuleType)
    (wall : Int) (oracle : Oracle) : List Subscription → St → RunRes St
  | [], st => .ok st
  | s :: rest, st =>
    if hasBlocking st.logs tn s.id ruleType s.nextRenewalDate then
      renewalLoop tn channels ruleType wall oracle rest st
    else
      match sendToChannels s ruleType s.nextRenewalDate wall oracle channels st with
      | .ok st' => renewalLoop tn channels ruleType wall oracle rest st'
      | .error e => .error e

/-- The renewal window of `processRenewalAlerts`: `addDays(now,
daysBefore)` truncated to `[setHours(0,0,0,0), setHours(23,59,59,999)]`
in the process timezone `procOff`. -/
def renewalWindow (procOff now daysBefore : Int) : Int × Int :=
  let targetDate := addDays now daysBefore
  (startOfDayAt procOff targetDate, startOfDayAt procOff targetDate + msPerDay - 1)

/-- `subscription.findMany({ where: { tenantId, status: 'ACTIVE',
nextRenewalDate: { gte: startOfDay, lte: endOfDay } } })`. -/
def selectRenewal (subs : List Subscription) (tn : String) (procOff now daysBefore : Int) :
    List Subscription :=
  subs.filter fun s =>
    decide (s.tenantId = tn ∧ s.status = "ACTIVE" ∧
      (renewalWindow procOff now daysBefore).1 ≤ s.nextRenewalDate ∧
      s.nextRenewalDate ≤ (renewalWindow procOff now daysBefore).2)

/-- `AlertsService.processRenewalAlerts`. -/
def processRenewalAlerts (subs : List Subscription) (tn : String)
    (channels : List AlertChannel) (daysBefore : Int) (ruleType : AlertRuleType)
    (now wall procOff : Int) (oracle : Oracle) (st : St) : RunRes St :=
  renewalLoop tn channels ruleType wall oracle (selectRenewal subs tn procOff now daysBefore) st

/-- `subscription.findMany({ where: { tenantId, status: 'ACTIVE',
nextRenewalDate: { lt: now } } })`. -/
def selectOverdue (subs : List Subscription) (tn : String) (now : Int) : List Subscription :=
  subs.filter fun s => decide (s.tenantId = tn ∧ s.status = "ACTIVE" ∧ s.nextRenewalDate < now)

/-- The dedup lookup of `processOverdueAlerts`: an existing OVERDUE log
for the subscription created at or after local midnight `today`, with any
status. -/
def hasOverdueToday (logs : List AlertLog) (tn sid : String) (today : Int) : Bool :=
  logs.any fun l =>
    decide (l.tenantId = tn ∧ l.subscriptionId = some sid ∧ l.ruleType = AlertRuleType.OVERDUE ∧
      today ≤ l.createdAt)

/-- The `for (const subscription of subscriptions)` loop of
`processOverdueAlerts` (`today` is `now.setHours(0,0,0,0)`, the same on
every iteration). -/
def overdueLoop (tn : String) (channels : List AlertChannel) (today wall : Int)
    (oracle : Oracle) : List Subscription → St → RunRes St
  | [], st => .ok st
  | s :: rest, st =>
    if hasOverdueToday st.logs tn s.id today then
      overdueLoop tn channels today wall oracle rest st
    else
      match sendToChannels s AlertRuleType.OVERDUE s.nextRenewalDate wall oracle channels st with
      | .ok st' => overdueLoop tn channels today wall oracle rest st'
      | .error e => .error e

/-- `AlertsService.processOverdueAlerts`.  `now.setHours(0,0,0,0)` inside
the loop mutates the shared `now` `Date` object, so the function returns
the possibly mutated `now` (mutated exactly when at least one overdue
subscription was found). -/
def processOverdueAlerts (subs : List Subscription) (tn : String)
    (channels : List AlertChannel) (now wall procOff : Int) (oracle : Oracle) (st : St) :
    RunRes (St × Int) :=
  let sel := selectOverdue subs tn now
  let today := startOfDayAt procOff now
  let now' := if sel.isEmpty then now else today
  match overdueLoop tn channels today wall oracle sel st with
  | .ok st' => .ok (st', now')
  | .error e => .error e

/-- A subscription with missing critical data (`ownerId`, `departmentId`
or `costCenter` null). -/
def dqQualifies (s : Subscription) : Bool :=
  decide (s.ownerId = none ∨ s.departmentId = none ∨ s.costCenter = none)

/-- `AlertsService.processDataQualityAlerts`: find problematic ACTIVE
subscriptions; skip when an `AlertLog` of rule type DATA_QUALITY exists
within the last 7 days; otherwise POST a summary text card to every
channel (`sendDataQualityAlert`), which creates no `AlertLog` row. -/
def processDataQualityAlerts (subs : List Subscription) (tn : String)
    (channels : List AlertChannel) (now : Int) (st : St) : St :=
  let problematic := subs.filter fun s =>
    decide (s.tenantId = tn ∧ s.status = "ACTIVE") && dqQualifies s
  if problematic.isEmpty then st
  else
    let oneWeekAgo := addDays now (-7)
    let existing := st.logs.any fun l =>
      decide (l.tenantId = tn ∧ l.ruleType = AlertRuleType.DATA_QUALITY ∧
        oneWeekAgo ≤ l.createdAt)
    if existing then st
    else { st with posts := st.posts ++ channels.map (·.webhookUrl) }

/-- `AlertsService.processAlertsForTenant`: load settings (abort when
missing), load active channels (abort when none), check quiet hours, then
run the enabled rules in order 14, 7, 3, tomorrow, overdue, data quality.
`nowHHMM` is `format(new Date(), 'HH:mm')` at the quiet-hours check;
`now` is the `new Date()` taken after it; `wall` is the wall clock used
for row timestamps. -/
def processAlertsForTenant (settings? : Option AlertSettings)
    (allChannels : List AlertChannel) (subs : List Subscription) (tn : String)
    (nowHHMM : String) (now wall procOff : Int) (oracle : Oracle) (st : St) : RunRes St :=
  match settings? with
  | none => .ok st
  | some settings =>
    let channels := allChannels.filter fun c => c.tenantId == tn && c.isActive
    if channels.isEmpty then .ok st
    else if isInQuietHours settings nowHHMM then .ok st
    else do
      let st ← if settings.enable14Days then
          processRenewalAlerts subs tn channels 14 AlertRuleType.DAYS_14 now wall procOff oracle st
        else pure st
      let st ← if settings.enable7Days then
          processRenewalAlerts subs tn channels 7 AlertRuleType.DAYS_7 now wall procOff oracle st
        else pure st
      let st ← if settings.enable3Days then
          processRenewalAlerts subs tn channels 3 AlertRuleType.DAYS_3 now wall procOff oracle st
        else pure st
      let st ← if settings.enableTomorrow then
          processRenewalAlerts subs tn channels 1 AlertRuleType.TOMORROW now wall procOff oracle st
        else pure st
      let p ← if settings.enableOverdue then
          processOverdueAlerts subs tn channels now wall procOff oracle st
        else pure (st, now)
      let st := if settings.enableDataQuality then
          processDataQualityAlerts subs tn channels p.2 p.1
        else p.1
      pure st

/-- The channels a monthly-summary run actually sends to. -/
def monthlyChannels (settings? : Option AlertSettings) (allChannels : List AlertChannel)
    (tn : String) : List AlertChannel :=
  match settings? with
  | none => []
  | some s =>
    if s.enableMonthlySummary then allChannels.filter fun c => c.tenantId == tn && c.isActive
    else []

/-- `AlertsService.sendMonthlySummary`: abort unless
`settings?.enableMonthlySummary`; load active channels (abort when none);
POST one text card per channel.  No quiet-hours check, no `AlertLog`
row, no dedup lookup. -/
def sendMonthlySummary (settings? : Option AlertSettings) (allChannels : List AlertChannel)
    (tn : String) (st : St) : St :=
  match settings? with
  | none => st
  | some s =>
    if !s.enableMonthlySummary then st
    else
      let channels := allChannels.filter fun c => c.tenantId == tn && c.isActive
      if channels.isEmpty then st
      else { st with posts := st.posts ++ channels.map (·.webhookUrl) }

/-- One BullMQ repeatable job registered by the worker. -/
structure ScheduledJob where
  name : String
  jobId : String
  cron : String
  tenantId : String
deriving DecidableEq, Repr

/-- The two repeatable jobs `scheduleRecurringJobs` registers for one
tenant. -/
def jobsForTenant (t : Tenant) : List ScheduledJob :=
  [ { name := "process-alerts", jobId := "daily-alerts-" ++ t.id, cron := "0 9 * * *",
      tenantId := t.id },
    { name := "monthly-summary", jobId := "monthly-summary-" ++ t.id, cron := "0 8 1 * *",
      tenantId := t.id } ]

/-- `worker.ts` `scheduleRecurringJobs`: for every active tenant, add a
daily `process-alerts` job and a monthly `monthly-summary` job, each with
a per-tenant job id. -/
def scheduleRecurringJobs (tenants : List Tenant) : List ScheduledJob :=
  (tenants.filter (·.isActive)).flatMap jobsForTenant

/-- The `concurrency` option of the BullMQ `Worker` in `worker.ts`. -/
def workerConcurrency : Nat := 5

/-- Modelled from the spec (§4.1): the renewal window "computed in the
tenant's evaluation timezone, truncated to day boundaries" — the same
day arithmetic as `renewalWindow` but using the tenant's timezone offset
`tenantOff` instead of the process timezone.  The code under `src/` never
consults the tenant timezone here; this definition exists only to compare
the claim's wording with the code. -/
def renewalWindowSpec (tenantOff now daysBefore : Int) : Int × Int :=
  let targetDate := addDays now daysBefore
  (startOfDayAt tenantOff targetDate, startOfDayAt tenantOff targetDate + msPerDay - 1)

/-- Subscriptions in `subs` with distinct ids (database rows have unique
primary keys). -/
def distinctIds : List Subscription → Bool
  | [] => true
  | s :: rest => (rest.all fun s2 => decide (s2.id ≠ s.id)) && distinctIds rest

/-- SENT rows for one dedup key. -/
def sentCountForKey (st : St) (tn sid : String) (rt : AlertRuleType) (dd : Int) : Nat :=
  (st.logs.filter fun l =>
    logMatchesKey tn sid rt dd l && decide (l.status = AlertStatus.SENT)).length

/-- OVERDUE rows for one subscription, any status. -/
def overdueLogsFor (logs : List AlertLog) (tn sid : String) : List AlertLog :=
  logs.filter fun l =>
    decide (l.tenantId = tn ∧ l.subscriptionId = some sid ∧ l.ruleType = AlertRuleType.OVERDUE)


/-! ## Concrete scenario data used by witnesses and counterexamples -/

/-- An active subscription of tenant `t` renewing at day 5 (all data-quality
fields present). -/
def subS1 : Subscription :=
  { id := "s1", tenantId := "t", status := "ACTIVE", nextRenewalDate := 432000000,
    ownerId := some "u1", departmentId := some "d1", costCenter := some "cc" }

/-- An active Google Chat channel of tenant `t`. -/
def chanA : AlertChannel :=
  { id := "c1", tenantId := "t", type := AlertChannelType.GOOGLE_CHAT,
    webhookUrl := "https://chat.example/hook-a", isActive := true }

/-- A second active Google Chat channel of tenant `t`. -/
def chanB : AlertChannel :=
  { id := "c2", tenantId := "t", type := AlertChannelType.GOOGLE_CHAT,
    webhookUrl := "https://chat.example/hook-b", isActive := true }

/-- Effects where every webhook POST returns HTTP 200 and storage never
fails. -/
def oracle200 : Oracle := fun _ _ =>
  { dispatch := .ok (200, "ok"), finalize := none, errorWrite := none }

/-- Settings with only the overdue rule enabled and no quiet hours. -/
def settingsOverdueOnly : AlertSettings :=
  { enable14Days := false, enable7Days := false, enable3Days := false,
    enableTomorrow := false, enableOverdue := true, enableMonthlySummary := false,
    enableDataQuality := false, quietHoursStart := none, quietHoursEnd := none,
    timezone := "UTC" }

/-- Settings with quiet hours 22:00-06:00 (spans midnight). -/
def qs2206 : AlertSettings :=
  { settingsOverdueOnly with quietHoursStart := some "22:00", quietHoursEnd := some "06:00" }

/-- Day 10, 09:00 UTC. -/
def c1now1 : Int := 896400000

/-- Day 11, 09:00 UTC. -/
def c1now2 : Int := 982800000

/-- First daily run of the pipeline on the overdue scenario. -/
def c1run1 : RunRes St :=
  processAlertsForTenant (some settingsOverdueOnly) [chanA] [subS1] "t" "09:00"
    c1now1 c1now1 0 oracle200 st0

/-- Second daily run, one day later, on the state the first run left. -/
def c1run2 : RunRes St :=
  match c1run1 with
  | .ok st1 => processAlertsForTenant (some settingsOverdueOnly) [chanA] [subS1] "t" "09:00"
      c1now2 c1now2 0 oracle200 st1
  | .error e => .error e

/-- An active subscription of tenant `t` renewing at day 7, 12:00 UTC. -/
def subCE : Subscription :=
  { id := "s2", tenantId := "t", status := "ACTIVE", nextRenewalDate := 648000000,
    ownerId := some "u1", departmentId := some "d1", costCenter := some "cc" }

/-- An active subscription of tenant `t` with a missing owner. -/
def subDQ : Subscription :=
  { id := "s3", tenantId := "t", status := "ACTIVE", nextRenewalDate := 999999999999,
    ownerId := none, departmentId := some "d1", costCenter := some "cc" }

/-- Settings with the monthly summary enabled and quiet hours that cover
the whole day. -/
def settingsM : AlertSettings :=
  { settingsOverdueOnly with
      enableMonthlySummary := true
      quietHoursStart := some "00:00"
      quietHoursEnd := some "23:59" }

/-- Effects where the POST succeeds with 200 but the finalizing
`alertLog.update` throws; the catch-block update succeeds. -/
def effFinFail : CallEffects :=
  { dispatch := .ok (200, "ok"), finalize := some "db down", errorWrite := none }

/-- Effects where the POST succeeds with 200 but both `alertLog.update`
calls throw. -/
def effBothFail : CallEffects :=
  { dispatch := .ok (200, "ok"), finalize := some "db down", errorWrite := some "db down 2" }

/-- Channel `c1` answers HTTP 500, channel `c2` answers HTTP 200; storage
never fails. -/
def oracle500200 : Oracle := fun _ c =>
  if c = "c1" then { dispatch := .ok (500, "boom"), finalize := none, errorWrite := none }
  else { dispatch := .ok (200, "ok"), finalize := none, errorWrite := none }

/-- An active tenant. -/
def tenant1 : Tenant := { id := "t1", name := "Acme", isActive := true }

/-- Another active tenant. -/
def tenant2 : Tenant := { id := "t2", name := "Beta", isActive := true }

/-- Webhook POST answering HTTP 200, storage healthy. -/
def eff200 : CallEffects :=
  { dispatch := .ok (200, "ok"), finalize := none, errorWrite := none }

/-- Webhook POST answering HTTP 500, storage healthy. -/
def eff500 : CallEffects :=
  { dispatch := .ok (500, "boom"), finalize := none, errorWrite := none }

/-- Effects where both storage updates fail, for every call. -/
def oracleBothFail : Oracle := fun _ _ => effBothFail

/-- A SENT row for key (t, s1, DAYS_7, day 5) written by an earlier run. -/
def logSent1 : AlertLog :=
  { id := 0, tenantId := "t", subscriptionId := some "s1", ruleType := AlertRuleType.DAYS_7,
    dueDate := 432000000, channelId := "c1", status := AlertStatus.SENT,
    responseCode := some 200, responseBody := some "ok", errorMessage := none,
    createdAt := 810000000, sentAt := some 810000000 }

/-- Ledger holding just `logSent1`. -/
def stA : St := { logs := [logSent1], nextId := 1, posts := [] }

/-- A FAILED row for key (t, s1, DAYS_7, day 5) written by an earlier run. -/
def logFailed1 : AlertLog :=
  { id := 0, tenantId := "t", subscriptionId := some "s1", ruleType := AlertRuleType.DAYS_7,
    dueDate := 432000000, channelId := "c1", status := AlertStatus.FAILED,
    responseCode := some 500, responseBody := some "boom", errorMessage := none,
    createdAt := 810000000, sentAt := none }

/-- Ledger holding just `logFailed1`. -/
def stF : St := { logs := [logFailed1], nextId := 1, posts := [] }

/-- An OVERDUE row for subscription s1 created today (day 10, 09:00). -/
def logOverdue1 : AlertLog :=
  { id := 0, tenantId := "t", subscriptionId := some "s1", ruleType := AlertRuleType.OVERDUE,
    dueDate := 432000000, channelId := "c1", status := AlertStatus.FAILED,
    responseCode := some 500, responseBody := some "boom", errorMessage := none,
    createdAt := 896400000, sentAt := none }

/-- Ledger holding just `logOverdue1`. -/
def stO : St := { logs := [logOverdue1], nextId := 1, posts := [] }

/-- The daily job the worker registers for `tenant1`. -/
def jobD1 : ScheduledJob :=
  { name := "process-alerts", jobId := "daily-alerts-t1", cron := "0 9 * * *",
    tenantId := "t1" }

/-! ## Helper lemmas -/

/-- Updating a log id that no list element carries is a no-op on the list. -/
theorem map_update_of_fresh (logs : List AlertLog) (i : Nat) (f : AlertLog → AlertLog)
    (h : ∀ l ∈ logs, l.id ≠ i) :
    (logs.map fun l => if l.id = i then f l else l) = logs := by
  induction logs with
  | nil => rfl
  | cons x xs ih =>
    simp only [List.map_cons]
    rw [if_neg (h x (by simp)), ih (fun y hy => h y (by simp [hy]))]

/-- A log transformer that changes only the status / outcome fields. -/
def KeepsKey (g : AlertLog → AlertLog) : Prop :=
  ∀ l : AlertLog, (g l).id = l.id ∧ (g l).tenantId = l.tenantId ∧
    (g l).subscriptionId = l.subscriptionId ∧ (g l).ruleType = l.ruleType ∧
    (g l).dueDate = l.dueDate ∧ (g l).channelId = l.channelId ∧ (g l).createdAt = l.createdAt

/-- A successful `finalizeAlert` is an update of the reserved row that
keeps its key fields. -/
theorem finalizeAlert_ok (logId : Nat) (wall : Int) (r : Except String (Bool × Nat × String))
    (eff : CallEffects) (st st' : St)
    (h : finalizeAlert logId wall r eff st = .ok st') :
    ∃ g, KeepsKey g ∧ st' = updateLog st logId g := by
  unfold finalizeAlert at h
  split at h
  · split at h
    · exact ⟨_, by intro l; exact ⟨rfl, rfl, rfl, rfl, rfl, rfl, rfl⟩, (Except.ok.inj h).symm⟩
    · split at h
      · exact ⟨_, by intro l; exact ⟨rfl, rfl, rfl, rfl, rfl, rfl, rfl⟩, (Except.ok.inj h).symm⟩
      · exact Except.noConfusion h
  · split at h
    · exact ⟨_, by intro l; exact ⟨rfl, rfl, rfl, rfl, rfl, rfl, rfl⟩, (Except.ok.inj h).symm⟩
    · exact Except.noConfusion h

/-- A throwing `finalizeAlert` leaves the storage exactly as it was. -/
theorem finalizeAlert_error (logId : Nat) (wall : Int)
    (r : Except String (Bool × Nat × String)) (eff : CallEffects) (st : St) (m : String)
    (stE : St) (h : finalizeAlert logId wall r eff st = .error (m, stE)) : stE = st := by
  unfold finalizeAlert at h
  split at h
  · split at h
    · exact Except.noConfusion h
    · split at h
      · exact Except.noConfusion h
      · exact (congrArg Prod.snd (Except.error.inj h)).symm
  · split at h
    · exact Except.noConfusion h
    · exact (congrArg Prod.snd (Except.error.inj h)).symm


/-- The reserved row's id is the counter it was created with. -/
theorem pendingLog_id (channel : AlertChannel) (sub : Subscription) (rt : AlertRuleType)
    (dd wall : Int) (i : Nat) : (pendingLog channel sub rt dd wall i).id = i := rfl

/-- A successful `sendAlert` appends exactly one row, carrying the
candidate's key fields, and advances the id counter. -/
theorem sendAlert_ok (channel : AlertChannel) (sub : Subscription) (rt : AlertRuleType)
    (dd wall : Int) (eff : CallEffects) (st st' : St)
    (hfresh : idsFresh st = true)
    (h : sendAlert channel sub rt dd wall eff st = .ok st') :
    ∃ l : AlertLog, st'.logs = st.logs ++ [l] ∧ l.tenantId = channel.tenantId ∧
      l.subscriptionId = some sub.id ∧ l.ruleType = rt ∧ l.dueDate = dd ∧
      l.createdAt = wall ∧ st'.nextId = st.nextId + 1 ∧ idsFresh st' = true := by
  have hlt : ∀ l ∈ st.logs, l.id ≠ st.nextId := by
    intro l hl
    have hd := List.all_eq_true.mp hfresh l hl
    have hd := of_decide_eq_true hd
    omega
  cases hct : channel.type
  all_goals
    simp only [sendAlert, hct, sendGoogleChatAlert] at h
    obtain ⟨g, hg, hst'⟩ := finalizeAlert_ok _ _ _ _ _ _ h
    refine ⟨g (pendingLog channel sub rt dd wall st.nextId), ?_, ?_, ?_, ?_, ?_, ?_, ?_, ?_⟩
    · rw [hst']
      simp only [updateLog, List.map_append, List.map_cons, List.map_nil, pendingLog_id]
      rw [map_update_of_fresh _ _ _ hlt]
      simp
    · exact ((hg _).2.1).trans rfl
    · exact ((hg _).2.2.1).trans rfl
    · exact ((hg _).2.2.2.1).trans rfl
    · exact ((hg _).2.2.2.2.1).trans rfl
    · exact ((hg _).2.2.2.2.2.2).trans rfl
    · rw [hst']; rfl
    · rw [hst']
      simp only [idsFresh, updateLog, List.all_eq_true, List.map_append, List.map_cons,
        List.map_nil, decide_eq_true_eq, pendingLog_id]
      intro x hx
      rcases List.mem_append.mp hx with hx | hx
      · obtain ⟨y, hy, rfl⟩ := List.mem_map.mp hx
        have hid := List.all_eq_true.mp hfresh y hy
        have hid := of_decide_eq_true hid
        rw [if_neg (hlt y hy)]
        omega
      · simp only [List.mem_singleton] at hx
        subst hx
        simp only [if_true, (hg _).1, pendingLog_id]
        omega

/-- A throwing `sendAlert` leaves the reserved row in the ledger with
status PENDING. -/
theorem sendAlert_error (channel : AlertChannel) (sub : Subscription) (rt : AlertRuleType)
    (dd wall : Int) (eff : CallEffects) (st : St) (m : String) (stE : St)
    (h : sendAlert channel sub rt dd wall eff st = .error (m, stE)) :
    stE.logs = st.logs ++ [pendingLog channel sub rt dd wall st.nextId] ∧
      (pendingLog channel sub rt dd wall st.nextId).status = AlertStatus.PENDING := by
  cases hct : channel.type
  all_goals
    simp only [sendAlert, hct, sendGoogleChatAlert] at h
    rw [finalizeAlert_error _ _ _ _ _ _ _ h]
    exact ⟨rfl, rfl⟩

/-- A successful channel loop appends one row per channel, all carrying
the candidate's key fields. -/
theorem sendToChannels_ok (sub : Subscription) (rt : AlertRuleType) (dd wall : Int)
    (oracle : Oracle) (chans : List AlertChannel) :
    ∀ (st st' : St),
      idsFresh st = true →
      sendToChannels sub rt dd wall oracle chans st = .ok st' →
      ∃ ls : List AlertLog, st'.logs = st.logs ++ ls ∧ ls.length = chans.length ∧
        (∀ l ∈ ls, l.subscriptionId = some sub.id ∧ l.ruleType = rt ∧ l.dueDate = dd ∧
          ∃ c ∈ chans, l.tenantId = c.tenantId) ∧ idsFresh st' = true := by
  induction chans with
  | nil =>
    intro st st' hfresh h
    simp only [sendToChannels] at h
    refine ⟨[], ?_, rfl, by simp, ?_⟩
    · rw [← Except.ok.inj h]; simp
    · rw [← Except.ok.inj h]; exact hfresh
  | cons c cs ih =>
    intro st st' hfresh h
    simp only [sendToChannels] at h
    cases hsa : sendAlert c sub rt dd wall (oracle sub.id c.id) st with
    | ok st1 =>
      simp only [hsa] at h
      obtain ⟨l, hlogs, htn, hsid, hrt, hdd, hcr, hnext, hfresh1⟩ :=
        sendAlert_ok _ _ _ _ _ _ _ _ hfresh hsa
      obtain ⟨ls, hlogs', hlen, hall, hfresh'⟩ := ih st1 st' hfresh1 h
      refine ⟨l :: ls, ?_, ?_, ?_, hfresh'⟩
      · rw [hlogs', hlogs]; simp
      · simp [hlen]
      · intro x hx
        rcases List.mem_cons.mp hx with rfl | hx
        · exact ⟨hsid, hrt, hdd, c, by simp, htn⟩
        · obtain ⟨h1, h2, h3, cc, hcc, h4⟩ := hall x hx
          exact ⟨h1, h2, h3, cc, by simp [hcc], h4⟩
    | error e =>
      simp only [hsa] at h
      exact Except.noConfusion h

/-- The SENT/PENDING dedup check over an extended ledger. -/
theorem hasBlocking_append (L1 L2 : List AlertLog) (tn sid : String) (rt : AlertRuleType)
    (dd : Int) :
    hasBlocking (L1 ++ L2) tn sid rt dd =
      (hasBlocking L1 tn sid rt dd || hasBlocking L2 tn sid rt dd) :=
  List.any_append

/-- The same-day OVERDUE dedup check over an extended ledger. -/
theorem hasOverdueToday_append (L1 L2 : List AlertLog) (tn sid : String) (today : Int) :
    hasOverdueToday (L1 ++ L2) tn sid today =
      (hasOverdueToday L1 tn sid today || hasOverdueToday L2 tn sid today) :=
  List.any_append

/-- Key-filtered rows of an extended ledger. -/
theorem logsForKey_append (L1 L2 : List AlertLog) (tn sid : String) (rt : AlertRuleType)
    (dd : Int) :
    logsForKey (L1 ++ L2) tn sid rt dd = logsForKey L1 tn sid rt dd ++ logsForKey L2 tn sid rt dd :=
  List.filter_append _ _

/-- Rows from a different (subscription, due date) never match the key. -/
theorem logMatchesKey_false_of (tn sid : String) (rt : AlertRuleType) (dd : Int)
    (s : Subscription) (l : AlertLog)
    (hsub : l.subscriptionId = some s.id) (hdd : l.dueDate = s.nextRenewalDate)
    (hne : ¬ (s.id = sid ∧ s.nextRenewalDate = dd)) :
    logMatchesKey tn sid rt dd l = false := by
  rw [logMatchesKey, decide_eq_false_iff_not]
  rintro ⟨-, h2, -, h4⟩
  rw [hsub] at h2
  rw [hdd] at h4
  exact hne ⟨Option.some.inj h2, h4⟩

/-- No key-matching row means no blocking row. -/
theorem hasBlocking_false_of (ls : List AlertLog) (tn sid : String) (rt : AlertRuleType)
    (dd : Int) (h : ∀ l ∈ ls, logMatchesKey tn sid rt dd l = false) :
    hasBlocking ls tn sid rt dd = false := by
  simp only [hasBlocking, List.any_eq_false]
  intro l hl
  simp [h l hl]

/-- No key-matching row means the key filter is empty. -/
theorem logsForKey_nil_of (ls : List AlertLog) (tn sid : String) (rt : AlertRuleType)
    (dd : Int) (h : ∀ l ∈ ls, logMatchesKey tn sid rt dd l = false) :
    logsForKey ls tn sid rt dd = [] := by
  simp only [logsForKey, List.filter_eq_nil_iff]
  intro l hl
  simp [h l hl]

/-- A SENT or PENDING row for a key blocks that key for the whole run:
the renewal loop adds no row for the key. -/
theorem renewalLoop_blocked_frame (tn : String) (chans : List AlertChannel)
    (rt : AlertRuleType) (wall : Int) (oracle : Oracle) (sid : String) (dd : Int)
    (subs : List Subscription) :
    ∀ (st st' : St),
      idsFresh st = true →
      hasBlocking st.logs tn sid rt dd = true →
      renewalLoop tn chans rt wall oracle subs st = .ok st' →
      logsForKey st'.logs tn sid rt dd = logsForKey st.logs tn sid rt dd := by
  induction subs with
  | nil =>
    intro st st' _ _ h
    simp only [renewalLoop] at h
    rw [← Except.ok.inj h]
  | cons s rest ih =>
    intro st st' hfresh hblock h
    simp only [renewalLoop] at h
    split at h
    · exact ih st st' hfresh hblock h
    · rename_i hb
      cases hsc : sendToChannels s rt s.nextRenewalDate wall oracle chans st with
      | ok st1 =>
        simp only [hsc] at h
        obtain ⟨ls, hlogs, hlen, hall, hfresh1⟩ := sendToChannels_ok _ _ _ _ _ _ _ _ hfresh hsc
        have hne : ¬ (s.id = sid ∧ s.nextRenewalDate = dd) := by
          rintro ⟨rfl, rfl⟩
          exact hb hblock
        have hlsf : ∀ l ∈ ls, logMatchesKey tn sid rt dd l = false := fun l hl =>
          logMatchesKey_false_of tn sid rt dd s l (hall l hl).1 (hall l hl).2.2.1 hne
        have hblock1 : hasBlocking st1.logs tn sid rt dd = true := by
          rw [hlogs, hasBlocking_append, hblock, Bool.true_or]
        have hrec := ih st1 st' hfresh1 hblock1 h
        rw [hrec, hlogs, logsForKey_append, logsForKey_nil_of _ _ _ _ _ hlsf,
          List.append_nil]
      | error e =>
        simp only [hsc] at h
        exact Except.noConfusion h

/-- Candidates with other subscription ids never touch a key's rows. -/
theorem renewalLoop_absent_frame (tn : String) (chans : List AlertChannel)
    (rt : AlertRuleType) (wall : Int) (oracle : Oracle) (sid : String) (dd : Int)
    (subs : List Subscription) :
    ∀ (st st' : St),
      idsFresh st = true →
      (∀ s ∈ subs, s.id ≠ sid) →
      renewalLoop tn chans rt wall oracle subs st = .ok st' →
      logsForKey st'.logs tn sid rt dd = logsForKey st.logs tn sid rt dd := by
  induction subs with
  | nil =>
    intro st st' _ _ h
    simp only [renewalLoop] at h
    rw [← Except.ok.inj h]
  | cons s rest ih =>
    intro st st' hfresh habs h
    simp only [renewalLoop] at h
    split at h
    · exact ih st st' hfresh (fun x hx => habs x (by simp [hx])) h
    · cases hsc : sendToChannels s rt s.nextRenewalDate wall oracle chans st with
      | ok st1 =>
        simp only [hsc] at h
        obtain ⟨ls, hlogs, hlen, hall, hfresh1⟩ := sendToChannels_ok _ _ _ _ _ _ _ _ hfresh hsc
        have hsne : s.id ≠ sid := habs s (by simp)
        have hlsf : ∀ l ∈ ls, logMatchesKey tn sid rt dd l = false := fun l hl =>
          logMatchesKey_false_of tn sid rt dd s l (hall l hl).1 (hall l hl).2.2.1
            (fun hc => hsne hc.1)
        have hrec := ih st1 st' hfresh1 (fun x hx => habs x (by simp [hx])) h
        rw [hrec, hlogs, logsForKey_append, logsForKey_nil_of _ _ _ _ _ hlsf, List.append_nil]
      | error e =>
        simp only [hsc] at h
        exact Except.noConfusion h

/-- When no SENT/PENDING row exists for an eligible candidate's key, the
renewal loop re-attempts it and appends exactly one row per channel for
that key. -/
theorem renewalLoop_count (tn : String) (chans : List AlertChannel) (rt : AlertRuleType)
    (wall : Int) (oracle : Oracle) (sub : Subscription) (subs : List Subscription) :
    ∀ (st st' : St),
      idsFresh st = true →
      (∀ c ∈ chans, c.tenantId = tn) →
      distinctIds subs = true →
      sub ∈ subs →
      hasBlocking st.logs tn sub.id rt sub.nextRenewalDate = false →
      renewalLoop tn chans rt wall oracle subs st = .ok st' →
      (logsForKey st'.logs tn sub.id rt sub.nextRenewalDate).length
        = (logsForKey st.logs tn sub.id rt sub.nextRenewalDate).length + chans.length := by
  induction subs with
  | nil =>
    intro st st' _ _ _ hmem _ _
    exact absurd hmem (List.not_mem_nil sub)
  | cons s rest ih =>
    intro st st' hfresh hch hdist hmem hblock h
    simp only [renewalLoop] at h
    have hdist1 : (rest.all fun s2 => decide (s2.id ≠ s.id)) = true ∧ distinctIds rest = true := by
      simpa [distinctIds, Bool.and_eq_true] using hdist
    rcases List.mem_cons.mp hmem with rfl | hmem'
    · split at h
      · rename_i hb
        rw [hblock] at hb
        exact Bool.noConfusion hb
      · cases hsc : sendToChannels sub rt sub.nextRenewalDate wall oracle chans st with
        | ok st1 =>
          simp only [hsc] at h
          obtain ⟨ls, hlogs, hlen, hall, hfresh1⟩ :=
            sendToChannels_ok _ _ _ _ _ _ _ _ hfresh hsc
          have hlsk : ∀ l ∈ ls, logMatchesKey tn sub.id rt sub.nextRenewalDate l = true := by
            intro l hl
            obtain ⟨h1, h2, h3, c, hc, h4⟩ := hall l hl
            simp only [logMatchesKey, decide_eq_true_eq]
            exact ⟨h4.trans (hch c hc), h1, h2, h3⟩
          have hrest : ∀ s' ∈ rest, s'.id ≠ sub.id := by
            intro s' hs'
            exact of_decide_eq_true (List.all_eq_true.mp hdist1.1 s' hs')
          have hframe := renewalLoop_absent_frame tn chans rt wall oracle sub.id
            sub.nextRenewalDate rest st1 st' hfresh1 hrest h
          have hfilter : logsForKey ls tn sub.id rt sub.nextRenewalDate = ls := by
            simp only [logsForKey]
            exact List.filter_eq_self.mpr hlsk
          rw [hframe, hlogs, logsForKey_append, hfilter, List.length_append, hlen]
        | error e =>
          simp only [hsc] at h
          exact Except.noConfusion h
    · have hsne : s.id ≠ sub.id :=
        fun hc => (of_decide_eq_true (List.all_eq_true.mp hdist1.1 sub hmem')) hc.symm
      split at h
      · exact ih st st' hfresh hch hdist1.2 hmem' hblock h
      · cases hsc : sendToChannels s rt s.nextRenewalDate wall oracle chans st with
        | ok st1 =>
          simp only [hsc] at h
          obtain ⟨ls, hlogs, hlen, hall, hfresh1⟩ :=
            sendToChannels_ok _ _ _ _ _ _ _ _ hfresh hsc
          have hlsf : ∀ l ∈ ls, logMatchesKey tn sub.id rt sub.nextRenewalDate l = false :=
            fun l hl => logMatchesKey_false_of _ _ _ _ s l (hall l hl).1 (hall l hl).2.2.1
              (fun hc => hsne hc.1)
          have hblock1 : hasBlocking st1.logs tn sub.id rt sub.nextRenewalDate = false := by
            rw [hlogs, hasBlocking_append, hblock, hasBlocking_false_of _ _ _ _ _ hlsf,
              Bool.or_self]
          have hrec := ih st1 st' hfresh1 hch hdist1.2 hmem' hblock1 h
          rw [hrec, hlogs, logsForKey_append, logsForKey_nil_of _ _ _ _ _ hlsf,
            List.append_nil]
        | error e =>
          simp only [hsc] at h
          exact Except.noConfusion h

/-- OVERDUE rows of one subscription over an extended ledger. -/
theorem overdueLogsFor_append (L1 L2 : List AlertLog) (tn sid : String) :
    overdueLogsFor (L1 ++ L2) tn sid = overdueLogsFor L1 tn sid ++ overdueLogsFor L2 tn sid :=
  List.filter_append _ _

/-- An OVERDUE row of today blocks the subscription for the rest of the
day's run: the overdue loop adds no OVERDUE row for it. -/
theorem overdueLoop_blocked_frame (tn : String) (chans : List AlertChannel)
    (today wall : Int) (oracle : Oracle) (sid : String) (subs : List Subscription) :
    ∀ (st st' : St),
      idsFresh st = true →
      hasOverdueToday st.logs tn sid today = true →
      overdueLoop tn chans today wall oracle subs st = .ok st' →
      overdueLogsFor st'.logs tn sid = overdueLogsFor st.logs tn sid := by
  induction subs with
  | nil =>
    intro st st' _ _ h
    simp only [overdueLoop] at h
    rw [← Except.ok.inj h]
  | cons s rest ih =>
    intro st st' hfresh hblock h
    simp only [overdueLoop] at h
    split at h
    · exact ih st st' hfresh hblock h
    · rename_i hb
      cases hsc : sendToChannels s AlertRuleType.OVERDUE s.nextRenewalDate wall oracle chans st with
      | ok st1 =>
        simp only [hsc] at h
        obtain ⟨ls, hlogs, hlen, hall, hfresh1⟩ := sendToChannels_ok _ _ _ _ _ _ _ _ hfresh hsc
        have hsne : s.id ≠ sid := by
          rintro rfl
          exact hb hblock
        have hlsf : ∀ l ∈ ls,
            (decide (l.tenantId = tn ∧ l.subscriptionId = some sid ∧
              l.ruleType = AlertRuleType.OVERDUE)) = false := by
          intro l hl
          rw [decide_eq_false_iff_not]
          rintro ⟨-, h2, -⟩
          rw [(hall l hl).1] at h2
          exact hsne (Option.some.inj h2)
        have hblock1 : hasOverdueToday st1.logs tn sid today = true := by
          rw [hlogs, hasOverdueToday_append, hblock, Bool.true_or]
        have hrec := ih st1 st' hfresh1 hblock1 h
        have hnil : overdueLogsFor ls tn sid = [] := by
          simp only [overdueLogsFor, List.filter_eq_nil_iff]
          intro l hl
          simp [hlsf l hl]
        rw [hrec, hlogs, overdueLogsFor_append, hnil, List.append_nil]
      | error e =>
        simp only [hsc] at h
        exact Except.noConfusion h

/-- Shifting an instant by whole days shifts its local midnight by the
same number of days. -/
theorem startOfDayAt_shift (off t d : Int) :
    startOfDayAt off (addDays t d) = startOfDayAt off t + d * msPerDay := by
  unfold startOfDayAt addDays msPerDay
  have h : t + d * 86400000 + off = t + off + d * 86400000 := by ring
  rw [h, Int.add_mul_ediv_right _ _ (show (86400000:Int) ≠ 0 by norm_num)]
  ring

/-- The due-date window of lead time `e` in closed form. -/
theorem renewalWindow_eq (procOff now e : Int) :
    renewalWindow procOff now e =
      (startOfDayAt procOff now + e * msPerDay,
       startOfDayAt procOff now + e * msPerDay + msPerDay - 1) := by
  simp only [renewalWindow]
  rw [startOfDayAt_shift]

/-- Filtering preserves distinctness of subscription ids. -/
theorem distinctIds_filter (p : Subscription → Bool) (subs : List Subscription)
    (h : distinctIds subs = true) : distinctIds (subs.filter p) = true := by
  induction subs with
  | nil => exact h
  | cons s rest ih =>
    have h1 : (rest.all fun s2 => decide (s2.id ≠ s.id)) = true ∧ distinctIds rest = true := by
      simpa [distinctIds, Bool.and_eq_true] using h
    by_cases hp : p s = true
    · simp only [List.filter_cons, hp, if_true, distinctIds, Bool.and_eq_true]
      refine ⟨?_, ih h1.2⟩
      rw [List.all_eq_true]
      intro x hx
      exact List.all_eq_true.mp h1.1 x (List.mem_of_mem_filter hx)
    · simp only [List.filter_cons, hp, if_false]
      exact ih h1.2

/-! ## Claim theorems -/

/-- C3: `isInQuietHours` returns false whenever either bound is unset
(null or empty); when both are set and start ≤ end it is true exactly
when start ≤ now ≤ end; when start > end (window spans midnight) it is
true exactly when now ≥ start or now ≤ end — all comparisons on HH:MM
strings, i.e. times of day; in particular with start 22:00 and end 06:00
it is true at 23:00 and at 02:00 and false at 12:00. -/
theorem C3_quiet_hours_spec (s : AlertSettings) (now : String) :
    ((isFalsy s.quietHoursStart = true ∨ isFalsy s.quietHoursEnd = true) →
      isInQuietHours s now = false) ∧
    (∀ qstart qend : String, s.quietHoursStart = some qstart → s.quietHoursEnd = some qend →
      isFalsy (some qstart) = false → isFalsy (some qend) = false →
      ((jsLE qstart qend = true →
          (isInQuietHours s now = true ↔ (jsLE qstart now = true ∧ jsLE now qend = true))) ∧
       (jsLE qstart qend = false →
          (isInQuietHours s now = true ↔ (jsLE qstart now = true ∨ jsLE now qend = true))))) ∧
    (isInQuietHours qs2206 "23:00" = true ∧ isInQuietHours qs2206 "02:00" = true ∧
      isInQuietHours qs2206 "12:00" = false) := by
  refine ⟨?_, ?_, by decide⟩
  · intro hf
    unfold isInQuietHours
    rcases hf with hf | hf <;> simp [hf]
  · intro qstart qend hst hen hfs hfe
    constructor
    · intro hle
      simp [isInQuietHours, hst, hen, hfs, hfe, hle, Bool.and_eq_true]
    · intro hle
      simp [isInQuietHours, hst, hen, hfs, hfe, hle, Bool.or_eq_true]

/-- C3 witness: the midnight-spanning branch applied at 23:00 with the
22:00-06:00 window. -/
theorem C3_quiet_hours_witness : isInQuietHours qs2206 "23:00" = true :=
  (((C3_quiet_hours_spec qs2206 "23:00").2.1 "22:00" "06:00" rfl rfl (by decide)
    (by decide)).2 (by decide)).mpr (Or.inl (by decide))

/-- C10: the quiet-hours check is independent of the tenant's configured
timezone: two settings values differing only in the `timezone` field,
evaluated at the same instant, give the same result — the time of day
compared is the process-local clock, never converted to the tenant
timezone. -/
theorem C10_timezone_independent (s : AlertSettings) (tz : String) (now : String) :
    isInQuietHours { s with timezone := tz } now = isInQuietHours s now := rfl

/-- C2 (amended): on the daily occasion the quiet-hours gate runs before
any rule and suppression skips the tenant's entire run — the ledger and
the dispatch trace are returned untouched; the monthly-summary occasion
performs no quiet-hours check: its result does not depend on the
quiet-hours fields at all. -/
theorem C2_amended :
    (∀ (settings : AlertSettings) (allCh : List AlertChannel) (subs : List Subscription)
       (tn nowHHMM : String) (now wall procOff : Int) (oracle : Oracle) (st : St),
       isInQuietHours settings nowHHMM = true →
       processAlertsForTenant (some settings) allCh subs tn nowHHMM now wall procOff oracle st
         = .ok st) ∧
    (∀ (s : AlertSettings) (qs qe : Option String) (allCh : List AlertChannel) (tn : String)
       (st : St),
       sendMonthlySummary (some { s with quietHoursStart := qs, quietHoursEnd := qe }) allCh tn st
         = sendMonthlySummary (some s) allCh tn st) := by
  constructor
  · intro settings allCh subs tn nowHHMM now wall procOff oracle st hq
    unfold processAlertsForTenant
    cases hc : (allCh.filter fun c => c.tenantId == tn && c.isActive).isEmpty
    · simp [hc, hq]
    · simp [hc]
  · intro s qs qe allCh tn st
    rfl

/-- C2 witness: a suppressed daily run at 12:00 with quiet hours
00:00-23:59 leaves the state unchanged. -/
theorem C2_amended_witness :
    processAlertsForTenant (some settingsM) [chanA] [subS1] "t" "12:00" c1now1 c1now1 0
      oracle200 st0 = .ok st0 :=
  C2_amended.1 settingsM [chanA] [subS1] "t" "12:00" c1now1 c1now1 0 oracle200 st0 (by decide)

/-- C2 (counterexample): at 12:00 the tenant is inside its quiet hours,
yet the monthly-summary occasion still dispatches to its channel — the
gate is not applied on the monthly occasion. -/
theorem C2_counterexample :
    isInQuietHours settingsM "12:00" = true ∧
    (sendMonthlySummary (some settingsM) [chanA] "t" st0).posts ≠ st0.posts := by
  decide

/-- The lower end of the due-date window in closed form. -/
theorem renewalWindow_fst (procOff now e : Int) :
    (renewalWindow procOff now e).1 = startOfDayAt procOff now + e * msPerDay := by
  rw [renewalWindow_eq]

/-- The upper end of the due-date window in closed form. -/
theorem renewalWindow_snd (procOff now e : Int) :
    (renewalWindow procOff now e).2 = startOfDayAt procOff now + e * msPerDay + msPerDay - 1 := by
  rw [renewalWindow_eq]

/-- C4 (amended): the renewal windows are computed in the process-local
timezone (`procOff`), not the tenant's: an Active subscription of the
tenant whose next-renewal-date lies in the full process-local calendar
day `today + d` is selected by the lead-time-`d` rule and by no other
lead-time rule on the same run. -/
theorem C4_amended (subs : List Subscription) (tn : String) (procOff now d : Int)
    (sub : Subscription) (hmem : sub ∈ subs) (htn : sub.tenantId = tn)
    (hact : sub.status = "ACTIVE")
    (hwin : (renewalWindow procOff now d).1 ≤ sub.nextRenewalDate ∧
      sub.nextRenewalDate ≤ (renewalWindow procOff now d).2) :
    sub ∈ selectRenewal subs tn procOff now d ∧
    ∀ d' : Int, d' ≠ d → sub ∉ selectRenewal subs tn procOff now d' := by
  constructor
  · rw [selectRenewal, List.mem_filter]
    exact ⟨hmem, decide_eq_true ⟨htn, hact, hwin.1, hwin.2⟩⟩
  · intro d' hne hmem'
    rw [selectRenewal, List.mem_filter] at hmem'
    have hp := of_decide_eq_true hmem'.2
    have h1 := hwin.1
    have h2 := hwin.2
    have h3 := hp.2.2.1
    have h4 := hp.2.2.2
    rw [renewalWindow_fst] at h1 h3
    rw [renewalWindow_snd] at h2 h4
    simp only [msPerDay] at h1 h2 h3 h4
    exact hne (by omega)

/-- C4 witness: the subscription renewing at day 7 noon is picked by the
7-day rule and no other lead time. -/
theorem C4_amended_witness :
    subCE ∈ selectRenewal [subCE] "t" 0 10800000 7 ∧
    ∀ d' : Int, d' ≠ 7 → subCE ∉ selectRenewal [subCE] "t" 0 10800000 d' :=
  C4_amended [subCE] "t" 0 10800000 7 subCE (by decide) (by decide) (by decide)
    ⟨by decide, by decide⟩

/-- C4 (counterexample): with the process in UTC and a tenant whose
evaluation timezone is UTC-5 (offset -18000000 ms), the Days7 rule
selects a subscription whose renewal date lies outside the full
tenant-timezone day `today + 7` — the window is computed from the
process clock, not in the tenant's evaluation timezone as claimed. -/
theorem C4_counterexample :
    subCE ∈ selectRenewal [subCE] "t" 0 10800000 7 ∧
    ¬ ((renewalWindowSpec (-18000000) 10800000 7).1 ≤ subCE.nextRenewalDate ∧
       subCE.nextRenewalDate ≤ (renewalWindowSpec (-18000000) 10800000 7).2) := by
  decide

/-- C5: the data-quality throttle is ineffective on the code as written:
a run with a qualifying subscription dispatches the alert but writes no
`AlertLog` row at all, so a second run one day later — well inside the
7-day window — dispatches again instead of being suppressed. -/
theorem C5_throttle_ineffective :
    (processDataQualityAlerts [subDQ] "t" [chanA] c1now1 st0).logs = [] ∧
    (processDataQualityAlerts [subDQ] "t" [chanA] c1now1 st0).posts.length = 1 ∧
    (processDataQualityAlerts [subDQ] "t" [chanA] c1now2
      (processDataQualityAlerts [subDQ] "t" [chanA] c1now1 st0)).posts.length = 2 := by
  decide

/-- C6 (amended): a monthly-summary run writes no `AlertLog` row and uses
no dedup key: it dispatches one summary per enabled active channel
directly, so a second run in the same month dispatches the same summaries
again. -/
theorem C6_amended (settings? : Option AlertSettings) (allCh : List AlertChannel)
    (tn : String) (st : St) :
    (sendMonthlySummary settings? allCh tn st).logs = st.logs ∧
    (sendMonthlySummary settings? allCh tn st).posts
      = st.posts ++ (monthlyChannels settings? allCh tn).map (·.webhookUrl) ∧
    (sendMonthlySummary settings? allCh tn (sendMonthlySummary settings? allCh tn st)).posts.length
      = st.posts.length + 2 * (monthlyChannels settings? allCh tn).length := by
  cases settings? with
  | none =>
    refine ⟨rfl, ?_, ?_⟩ <;> simp [sendMonthlySummary, monthlyChannels]
  | some s =>
    by_cases he : s.enableMonthlySummary = true
    · cases hE : allCh.filter fun c => c.tenantId == tn && c.isActive with
      | nil =>
        refine ⟨?_, ?_, ?_⟩ <;> simp [sendMonthlySummary, monthlyChannels, he, hE]
      | cons c cs =>
        refine ⟨?_, ?_, ?_⟩
        · simp [sendMonthlySummary, monthlyChannels, he, hE]
        · simp [sendMonthlySummary, monthlyChannels, he, hE]
        · simp [sendMonthlySummary, monthlyChannels, he, hE, List.length_append]
          omega
    · have he' : s.enableMonthlySummary = false := by
        cases hb : s.enableMonthlySummary
        · rfl
        · exact absurd hb he
      refine ⟨?_, ?_, ?_⟩ <;> simp [sendMonthlySummary, monthlyChannels, he']

/-- C6 (counterexample): two monthly-summary runs in the same month for
the same tenant dispatch twice and never create any `AlertLog` — there is
no synthetic first-of-month due date and no dedup. -/
theorem C6_counterexample :
    (sendMonthlySummary (some settingsM) [chanA] "t"
      (sendMonthlySummary (some settingsM) [chanA] "t" st0)).posts.length = 2 ∧
    (sendMonthlySummary (some settingsM) [chanA] "t"
      (sendMonthlySummary (some settingsM) [chanA] "t" st0)).logs = [] := by
  decide

/-- C8 (amended): each occasion is scheduled as one repeating job per
active tenant (job ids `daily-alerts-{tenantId}` and
`monthly-summary-{tenantId}`), two jobs per active tenant in total, and
the worker executes with concurrency 5 — not a single tenant-agnostic
job per occasion with concurrency 1. -/
theorem C8_amended (tenants : List Tenant) :
    (scheduleRecurringJobs tenants).length = 2 * (tenants.filter (·.isActive)).length ∧
    (∀ j ∈ scheduleRecurringJobs tenants,
      (j.name = "process-alerts" ∧ j.jobId = "daily-alerts-" ++ j.tenantId ∧
        j.cron = "0 9 * * *") ∨
      (j.name = "monthly-summary" ∧ j.jobId = "monthly-summary-" ++ j.tenantId ∧
        j.cron = "0 8 1 * *")) ∧
    workerConcurrency = 5 := by
  refine ⟨?_, ?_, rfl⟩
  · unfold scheduleRecurringJobs
    induction tenants.filter (·.isActive) with
    | nil => rfl
    | cons t rest ih =>
      simp only [List.flatMap_cons, List.length_append, ih, List.length_cons]
      simp [jobsForTenant]
      omega
  · intro j hj
    unfold scheduleRecurringJobs at hj
    rw [List.mem_flatMap] at hj
    obtain ⟨t, ht, hjt⟩ := hj
    simp only [jobsForTenant, List.mem_cons, List.not_mem_nil, or_false] at hjt
    rcases hjt with rfl | rfl
    · left; exact ⟨rfl, rfl, rfl⟩
    · right; exact ⟨rfl, rfl, rfl⟩

/-- C8 witness: the daily job of tenant t1 is one of the two per-tenant
jobs with its per-tenant job id. -/
theorem C8_amended_witness :
    (jobD1.name = "process-alerts" ∧ jobD1.jobId = "daily-alerts-" ++ jobD1.tenantId ∧
      jobD1.cron = "0 9 * * *") ∨
    (jobD1.name = "monthly-summary" ∧ jobD1.jobId = "monthly-summary-" ++ jobD1.tenantId ∧
      jobD1.cron = "0 8 1 * *") :=
  (C8_amended [tenant1]).2.1 jobD1 (by decide)

/-- C8 (counterexample): the worker's concurrency is 5, not 1, and with
two active tenants the daily occasion is registered as two separate jobs,
not a single logical job. -/
theorem C8_counterexample :
    workerConcurrency ≠ 1 ∧
    ((scheduleRecurringJobs [tenant1, tenant2]).filter fun j =>
      j.name == "process-alerts").length = 2 := by
  decide

/-- Fresh states never store the next id. -/
theorem idsFresh_ne (st : St) (hfresh : idsFresh st = true) :
    ∀ l ∈ st.logs, l.id ≠ st.nextId := by
  intro l hl
  have hd := of_decide_eq_true (List.all_eq_true.mp hfresh l hl)
  omega

/-- Finalizing the freshly reserved row rewrites exactly that row. -/
theorem updateLog_push (st : St) (posts2 : List String) (p : AlertLog)
    (g : AlertLog → AlertLog) (hfresh : idsFresh st = true) (hp : p.id = st.nextId) :
    (updateLog { logs := st.logs ++ [p], nextId := st.nextId + 1, posts := posts2 }
      st.nextId g).logs = st.logs ++ [g p] := by
  simp only [updateLog, List.map_append, List.map_cons, List.map_nil]
  rw [map_update_of_fresh _ _ _ (idsFresh_ne st hfresh), hp, if_pos rfl]

/-- Finalizing the freshly reserved row keeps ids fresh. -/
theorem idsFresh_push (st : St) (posts2 : List String) (p : AlertLog)
    (g : AlertLog → AlertLog) (hfresh : idsFresh st = true) (hp : p.id = st.nextId)
    (hg : (g p).id = p.id) :
    idsFresh (updateLog { logs := st.logs ++ [p], nextId := st.nextId + 1, posts := posts2 }
      st.nextId g) = true := by
  have hl := updateLog_push st posts2 p g hfresh hp
  have hfa : ∀ x ∈ st.logs ++ [g p], x.id < st.nextId + 1 := by
    intro x hx
    rcases List.mem_append.mp hx with hx | hx
    · have hd := of_decide_eq_true (List.all_eq_true.mp hfresh x hx)
      omega
    · simp only [List.mem_singleton] at hx
      subst hx
      rw [hg, hp]
      omega
  rw [idsFresh, hl]
  show (st.logs ++ [g p]).all (fun l => decide (l.id < st.nextId + 1)) = true
  rw [List.all_eq_true]
  intro x hx
  exact decide_eq_true (hfa x hx)

/-- Full characterisation of one `sendAlert` on a Google Chat channel
whose POST yields an HTTP response and whose finalize write succeeds. -/
theorem sendAlert_gchat_ok (ch : AlertChannel) (sub : Subscription) (rt : AlertRuleType)
    (dd wall : Int) (eff : CallEffects) (st : St) (code : Nat) (body : String)
    (hfresh : idsFresh st = true) (hct : ch.type = AlertChannelType.GOOGLE_CHAT)
    (hdisp : eff.dispatch = .ok (code, body)) (hfin : eff.finalize = none) :
    ∃ st' l, sendAlert ch sub rt dd wall eff st = .ok st' ∧
      st'.logs = st.logs ++ [l] ∧ st'.nextId = st.nextId + 1 ∧
      st'.posts = st.posts ++ [ch.webhookUrl] ∧ idsFresh st' = true ∧
      l.status = (if 200 ≤ code ∧ code ≤ 299 then AlertStatus.SENT else AlertStatus.FAILED) ∧
      l.responseCode = some code ∧ l.responseBody = some body ∧
      l.tenantId = ch.tenantId ∧ l.subscriptionId = some sub.id ∧ l.ruleType = rt ∧
      l.dueDate = dd ∧ l.channelId = ch.id ∧ l.errorMessage = none ∧ l.createdAt = wall := by
  simp only [sendAlert, hct, hdisp, hfin, sendGoogleChatAlert, finalizeAlert, pendingLog_id]
  refine ⟨_, _, rfl, updateLog_push st _ _ _ hfresh rfl, rfl, rfl,
    idsFresh_push st _ _ _ hfresh rfl rfl, ?_, rfl, rfl, rfl, rfl, rfl, rfl, rfl, rfl, rfl⟩
  by_cases hc : 200 ≤ code ∧ code ≤ 299
  · simp [pendingLog, hc]
  · simp [pendingLog, hc]

/-- Full characterisation of one `sendAlert` on a Google Chat channel
whose POST throws (network error / timeout) and whose catch-block write
succeeds. -/
theorem sendAlert_gchat_error_path (ch : AlertChannel) (sub : Subscription)
    (rt : AlertRuleType) (dd wall : Int) (eff : CallEffects) (st : St) (e : String)
    (hfresh : idsFresh st = true) (hct : ch.type = AlertChannelType.GOOGLE_CHAT)
    (hdisp : eff.dispatch = .error e) (hew : eff.errorWrite = none) :
    ∃ st' l, sendAlert ch sub rt dd wall eff st = .ok st' ∧
      st'.logs = st.logs ++ [l] ∧ st'.nextId = st.nextId + 1 ∧
      st'.posts = st.posts ++ [ch.webhookUrl] ∧ idsFresh st' = true ∧
      l.status = AlertStatus.FAILED ∧ l.errorMessage = some e ∧
      l.tenantId = ch.tenantId ∧ l.subscriptionId = some sub.id ∧ l.ruleType = rt ∧
      l.dueDate = dd ∧ l.createdAt = wall := by
  simp only [sendAlert, hct, hdisp, hew, sendGoogleChatAlert, finalizeAlert, pendingLog_id]
  exact ⟨_, _, rfl, updateLog_push st _ _ _ hfresh rfl, rfl, rfl,
    idsFresh_push st _ _ _ hfresh rfl rfl, rfl, rfl, rfl, rfl, rfl, rfl, rfl⟩

/-- C7: dispatch classifies any 2xx response as success (the row becomes
SENT) and every other outcome — non-2xx, or a rejected fetch (network
error / timeout) — as FAILED, capturing the response code/body or the
error text; channels are attempted independently: for one candidate with
channel A answering HTTP 500 and channel B answering HTTP 200, two rows
are written, FAILED and SENT respectively, and the loop proceeds to the
next candidate. -/
theorem C7_dispatch_classification (sub : Subscription) (rt : AlertRuleType)
    (dd wall : Int) (st : St) (hfresh : idsFresh st = true) :
    (∀ (ch : AlertChannel) (eff : CallEffects) (code : Nat) (body : String),
      ch.type = AlertChannelType.GOOGLE_CHAT → eff.dispatch = .ok (code, body) →
      eff.finalize = none →
      ∃ st' l, sendAlert ch sub rt dd wall eff st = .ok st' ∧ st'.logs = st.logs ++ [l] ∧
        (l.status = AlertStatus.SENT ↔ (200 ≤ code ∧ code ≤ 299)) ∧
        (l.status = AlertStatus.FAILED ↔ ¬ (200 ≤ code ∧ code ≤ 299)) ∧
        l.responseCode = some code ∧ l.responseBody = some body) ∧
    (∀ (ch : AlertChannel) (eff : CallEffects) (e : String),
      ch.type = AlertChannelType.GOOGLE_CHAT → eff.dispatch = .error e →
      eff.errorWrite = none →
      ∃ st' l, sendAlert ch sub rt dd wall eff st = .ok st' ∧ st'.logs = st.logs ++ [l] ∧
        l.status = AlertStatus.FAILED ∧ l.errorMessage = some e) ∧
    (∀ (chA chB : AlertChannel) (oracle : Oracle) (tn : String) (rest : List Subscription)
       (bodyA bodyB : String),
      chA.type = AlertChannelType.GOOGLE_CHAT → chB.type = AlertChannelType.GOOGLE_CHAT →
      oracle sub.id chA.id
        = { dispatch := .ok (500, bodyA), finalize := none, errorWrite := none } →
      oracle sub.id chB.id
        = { dispatch := .ok (200, bodyB), finalize := none, errorWrite := none } →
      hasBlocking st.logs tn sub.id rt sub.nextRenewalDate = false →
      ∃ st' l1 l2,
        sendToChannels sub rt sub.nextRenewalDate wall oracle [chA, chB] st = .ok st' ∧
        st'.logs = st.logs ++ [l1, l2] ∧
        l1.status = AlertStatus.FAILED ∧ l1.responseCode = some 500 ∧
        l2.status = AlertStatus.SENT ∧ l2.responseCode = some 200 ∧
        renewalLoop tn [chA, chB] rt wall oracle (sub :: rest) st
          = renewalLoop tn [chA, chB] rt wall oracle rest st') := by
  refine ⟨?_, ?_, ?_⟩
  · intro ch eff code body hct hdisp hfin
    obtain ⟨st', l, h1, h2, _, _, _, hstat, hrc, hrb, _⟩ :=
      sendAlert_gchat_ok ch sub rt dd wall eff st code body hfresh hct hdisp hfin
    refine ⟨st', l, h1, h2, ?_, ?_, hrc, hrb⟩
    · rw [hstat]
      by_cases hc : 200 ≤ code ∧ code ≤ 299 <;> simp [hc]
    · rw [hstat]
      by_cases hc : 200 ≤ code ∧ code ≤ 299 <;> simp [hc]
  · intro ch eff e hct hdisp hew
    obtain ⟨st', l, h1, h2, _, _, _, hstat, hmsg, _⟩ :=
      sendAlert_gchat_error_path ch sub rt dd wall eff st e hfresh hct hdisp hew
    exact ⟨st', l, h1, h2, hstat, hmsg⟩
  · intro chA chB oracle tn rest bodyA bodyB hctA hctB hoA hoB hblock
    obtain ⟨st1, l1, h1, hlogs1, hnext1, hposts1, hfresh1, hstat1, hrc1, hrb1, _⟩ :=
      sendAlert_gchat_ok chA sub rt sub.nextRenewalDate wall (oracle sub.id chA.id) st 500
        bodyA hfresh hctA (by rw [hoA]) (by rw [hoA])
    obtain ⟨st2, l2, h2, hlogs2, _, _, _, hstat2, hrc2, hrb2, _⟩ :=
      sendAlert_gchat_ok chB sub rt sub.nextRenewalDate wall (oracle sub.id chB.id) st1 200
        bodyB hfresh1 hctB (by rw [hoB]) (by rw [hoB])
    have hchain : sendToChannels sub rt sub.nextRenewalDate wall oracle [chA, chB] st
        = .ok st2 := by
      simp only [sendToChannels, h1, h2]
    refine ⟨st2, l1, l2, hchain, ?_, ?_, hrc1, ?_, hrc2, ?_⟩
    · rw [hlogs2, hlogs1, List.append_assoc]
      rfl
    · rw [hstat1]; decide
    · rw [hstat2]; decide
    · simp [renewalLoop, hblock, hchain]

/-- C7 witness: channels c1 (HTTP 500) and c2 (HTTP 200) on the day-5
candidate write a FAILED and a SENT row and the loop continues. -/
theorem C7_dispatch_witness :
    ∃ st' l1 l2,
      sendToChannels subS1 AlertRuleType.DAYS_7 subS1.nextRenewalDate c1now1 oracle500200
        [chanA, chanB] st0 = .ok st' ∧
      st'.logs = st0.logs ++ [l1, l2] ∧
      l1.status = AlertStatus.FAILED ∧ l1.responseCode = some 500 ∧
      l2.status = AlertStatus.SENT ∧ l2.responseCode = some 200 ∧
      renewalLoop "t" [chanA, chanB] AlertRuleType.DAYS_7 c1now1 oracle500200
        (subS1 :: []) st0
        = renewalLoop "t" [chanA, chanB] AlertRuleType.DAYS_7 c1now1 oracle500200 [] st' :=
  (C7_dispatch_classification subS1 AlertRuleType.DAYS_7 0 c1now1 st0 (by decide)).2.2
    chanA chanB oracle500200 "t" [] "boom" "ok" rfl rfl rfl rfl (by decide)

/-- One `sendAlert` whose finalize write throws but whose catch-block
write succeeds: the row ends FAILED with the storage error message. -/
theorem sendAlert_gchat_finfail (ch : AlertChannel) (sub : Subscription)
    (rt : AlertRuleType) (dd wall : Int) (eff : CallEffects) (st : St)
    (code : Nat) (body m : String)
    (hfresh : idsFresh st = true) (hct : ch.type = AlertChannelType.GOOGLE_CHAT)
    (hdisp : eff.dispatch = .ok (code, body)) (hfin : eff.finalize = some m)
    (hew : eff.errorWrite = none) :
    ∃ st' l, sendAlert ch sub rt dd wall eff st = .ok st' ∧
      st'.logs = st.logs ++ [l] ∧ l.status = AlertStatus.FAILED ∧
      l.errorMessage = some m ∧ idsFresh st' = true := by
  simp only [sendAlert, hct, hdisp, hfin, hew, sendGoogleChatAlert, finalizeAlert,
    pendingLog_id]
  exact ⟨_, _, rfl, updateLog_push st _ _ _ hfresh rfl, rfl, rfl,
    idsFresh_push st _ _ _ hfresh rfl rfl⟩

/-- One `sendAlert` where both storage updates throw: the exception
escapes with the reserved row still PENDING in the ledger. -/
theorem sendAlert_gchat_bothfail (ch : AlertChannel) (sub : Subscription)
    (rt : AlertRuleType) (dd wall : Int) (eff : CallEffects) (st : St)
    (code : Nat) (body m m2 : String)
    (hct : ch.type = AlertChannelType.GOOGLE_CHAT)
    (hdisp : eff.dispatch = .ok (code, body)) (hfin : eff.finalize = some m)
    (hew : eff.errorWrite = some m2) :
    ∃ stE, sendAlert ch sub rt dd wall eff st = .error (m2, stE) ∧
      stE.logs = st.logs ++ [pendingLog ch sub rt dd wall st.nextId] ∧
      (pendingLog ch sub rt dd wall st.nextId).status = AlertStatus.PENDING := by
  simp only [sendAlert, hct, hdisp, hfin, hew, sendGoogleChatAlert, finalizeAlert,
    pendingLog_id]
  exact ⟨_, rfl, rfl, rfl⟩

/-- A throwing first channel aborts the whole channel loop. -/
theorem sendToChannels_error_head (sub : Subscription) (rt : AlertRuleType)
    (dd wall : Int) (oracle : Oracle) (c : AlertChannel) (cs : List AlertChannel)
    (st : St) (e : String × St)
    (h : sendAlert c sub rt dd wall (oracle sub.id c.id) st = .error e) :
    sendToChannels sub rt dd wall oracle (c :: cs) st = .error e := by
  simp [sendToChannels, h]

/-- A throwing channel loop aborts the subscription loop, skipping every
remaining candidate. -/
theorem renewalLoop_error_propagates (tn : String) (chans : List AlertChannel)
    (rt : AlertRuleType) (wall : Int) (oracle : Oracle) (s : Subscription)
    (rest : List Subscription) (st : St) (e : String × St)
    (hb : hasBlocking st.logs tn s.id rt s.nextRenewalDate = false)
    (hsc : sendToChannels s rt s.nextRenewalDate wall oracle chans st = .error e) :
    renewalLoop tn chans rt wall oracle (s :: rest) st = .error e := by
  simp [renewalLoop, hb, hsc]

/-- C9 (amended): a failure while finalizing an AlertLog is caught and
the service then writes the log as Failed with the error message — the
log is not left Pending and the run continues; only when that second
write also fails does the exception propagate out of the dispatch loop,
aborting the remaining candidates of the tenant's run, with the affected
log left Pending in storage. -/
theorem C9_finalize_failure_amended (sub : Subscription) (rt : AlertRuleType)
    (dd wall : Int) (st : St) (hfresh : idsFresh st = true) :
    (∀ (ch : AlertChannel) (eff : CallEffects) (code : Nat) (body m : String),
      ch.type = AlertChannelType.GOOGLE_CHAT → eff.dispatch = .ok (code, body) →
      eff.finalize = some m → eff.errorWrite = none →
      ∃ st' l, sendAlert ch sub rt dd wall eff st = .ok st' ∧
        st'.logs = st.logs ++ [l] ∧ l.status = AlertStatus.FAILED ∧
        l.errorMessage = some m) ∧
    (∀ (ch : AlertChannel) (eff : CallEffects) (code : Nat) (body m m2 : String),
      ch.type = AlertChannelType.GOOGLE_CHAT → eff.dispatch = .ok (code, body) →
      eff.finalize = some m → eff.errorWrite = some m2 →
      ∃ stE, sendAlert ch sub rt dd wall eff st = .error (m2, stE) ∧
        stE.logs = st.logs ++ [pendingLog ch sub rt dd wall st.nextId] ∧
        (pendingLog ch sub rt dd wall st.nextId).status = AlertStatus.PENDING) ∧
    (∀ (chans : List AlertChannel) (oracle : Oracle) (tn : String)
       (rest : List Subscription) (e : String × St),
      hasBlocking st.logs tn sub.id rt sub.nextRenewalDate = false →
      sendToChannels sub rt sub.nextRenewalDate wall oracle chans st = .error e →
      renewalLoop tn chans rt wall oracle (sub :: rest) st = .error e) := by
  refine ⟨?_, ?_, ?_⟩
  · intro ch eff code body m hct hdisp hfin hew
    obtain ⟨st', l, h1, h2, h3, h4, _⟩ :=
      sendAlert_gchat_finfail ch sub rt dd wall eff st code body m hfresh hct hdisp hfin hew
    exact ⟨st', l, h1, h2, h3, h4⟩
  · intro ch eff code body m m2 hct hdisp hfin hew
    exact sendAlert_gchat_bothfail ch sub rt dd wall eff st code body m m2 hct hdisp hfin hew
  · intro chans oracle tn rest e hb hsc
    exact renewalLoop_error_propagates tn chans rt wall oracle sub rest st e hb hsc

/-- C9 witness: with a failing finalize write and a healthy catch-block
write, the concrete run ends Ok with the row FAILED. -/
theorem C9_finalize_witness :
    ∃ st' l, sendAlert chanA subS1 AlertRuleType.DAYS_7 432000000 c1now1 effFinFail st0
        = .ok st' ∧
      st'.logs = st0.logs ++ [l] ∧ l.status = AlertStatus.FAILED ∧
      l.errorMessage = some "db down" :=
  (C9_finalize_failure_amended subS1 AlertRuleType.DAYS_7 432000000 c1now1 st0
    (by decide)).1 chanA effFinFail 200 "ok" "db down" rfl rfl rfl rfl

/-- C9 (counterexample): a finalize failure does not leave the log
Pending — the catch block rewrites it to FAILED; and when storage stays
down (both writes fail) the exception does propagate out of the dispatch
loop instead of being swallowed. -/
theorem C9_counterexample :
    ((sendAlert chanA subS1 AlertRuleType.DAYS_7 432000000 c1now1 effFinFail st0).toOption.map
      fun st => st.logs.map (·.status)) = some [AlertStatus.FAILED] ∧
    (renewalLoop "t" [chanA] AlertRuleType.DAYS_7 c1now1 oracleBothFail [subS1] st0).toOption
      = none := by
  decide

/-- C1 (amended): for the renewal-lead-time rules, an existing Pending or
Sent row for (tenant, subscription, rule type, due date) blocks any
re-attempt of that candidate — the run adds no row for that key — while
with no such row (in particular when only Failed rows exist) the
candidate is re-attempted, appending exactly one row per channel; so all
Sent rows for one key come from a single dispatching run (one per
channel).  For the Overdue rule the dedup is instead per creation day:
any OVERDUE row for the subscription created at or after local midnight,
whatever its status, blocks re-attempts for the rest of that day's run
(and, as the counterexample shows, the same key can reach Sent again on
a later day). -/
theorem C1_dedup_amended :
    (∀ (subs : List Subscription) (tn : String) (chans : List AlertChannel)
       (daysBefore : Int) (rt : AlertRuleType) (now wall procOff : Int) (oracle : Oracle)
       (st st' : St) (sid : String) (dd : Int),
      idsFresh st = true →
      hasBlocking st.logs tn sid rt dd = true →
      processRenewalAlerts subs tn chans daysBefore rt now wall procOff oracle st = .ok st' →
      logsForKey st'.logs tn sid rt dd = logsForKey st.logs tn sid rt dd) ∧
    (∀ (subs : List Subscription) (tn : String) (chans : List AlertChannel)
       (daysBefore : Int) (rt : AlertRuleType) (now wall procOff : Int) (oracle : Oracle)
       (st st' : St) (sub : Subscription),
      idsFresh st = true →
      (∀ c ∈ chans, c.tenantId = tn) →
      distinctIds subs = true →
      sub ∈ selectRenewal subs tn procOff now daysBefore →
      hasBlocking st.logs tn sub.id rt sub.nextRenewalDate = false →
      processRenewalAlerts subs tn chans daysBefore rt now wall procOff oracle st = .ok st' →
      (logsForKey st'.logs tn sub.id rt sub.nextRenewalDate).length
        = (logsForKey st.logs tn sub.id rt sub.nextRenewalDate).length + chans.length) ∧
    (∀ (subs : List Subscription) (tn : String) (chans : List AlertChannel)
       (now wall procOff : Int) (oracle : Oracle) (st st' : St) (now' : Int) (sid : String),
      idsFresh st = true →
      hasOverdueToday st.logs tn sid (startOfDayAt procOff now) = true →
      processOverdueAlerts subs tn chans now wall procOff oracle st = .ok (st', now') →
      overdueLogsFor st'.logs tn sid = overdueLogsFor st.logs tn sid) := by
  refine ⟨?_, ?_, ?_⟩
  · intro subs tn chans daysBefore rt now wall procOff oracle st st' sid dd hfresh hblock h
    exact renewalLoop_blocked_frame tn chans rt wall oracle sid dd
      (selectRenewal subs tn procOff now daysBefore) st st' hfresh hblock h
  · intro subs tn chans daysBefore rt now wall procOff oracle st st' sub hfresh hch hdist
      hmem hblock h
    exact renewalLoop_count tn chans rt wall oracle sub
      (selectRenewal subs tn procOff now daysBefore) st st' hfresh hch
      (distinctIds_filter _ _ hdist) hmem hblock h
  · intro subs tn chans now wall procOff oracle st st' now' sid hfresh hblock h
    simp only [processOverdueAlerts] at h
    cases hov : overdueLoop tn chans (startOfDayAt procOff now) wall oracle
        (selectOverdue subs tn now) st with
    | ok st1 =>
      simp only [hov] at h
      have hst : st1 = st' := congrArg Prod.fst (Except.ok.inj h)
      rw [← hst]
      exact overdueLoop_blocked_frame tn chans (startOfDayAt procOff now) wall oracle sid
        (selectOverdue subs tn now) st st1 hfresh hblock hov
    | error e =>
      simp only [hov] at h
      exact Except.noConfusion h

/-- C1 witness: a SENT row blocks the day-5 candidate (the run changes
nothing for its key); a FAILED row does not block it (the run appends
one row for the key over the single channel); an OVERDUE row created
today blocks the overdue candidate for today's run. -/
theorem C1_dedup_witness :
    (logsForKey ((processRenewalAlerts [subS1] "t" [chanA] 7 AlertRuleType.DAYS_7
        (-140400000) (-140400000) 0 oracle200 stA).toOption.getD st0).logs
        "t" "s1" AlertRuleType.DAYS_7 432000000
      = logsForKey stA.logs "t" "s1" AlertRuleType.DAYS_7 432000000) ∧
    ((logsForKey ((processRenewalAlerts [subS1] "t" [chanA] 7 AlertRuleType.DAYS_7
        (-140400000) (-140400000) 0 oracle200 stF).toOption.getD st0).logs
        "t" "s1" AlertRuleType.DAYS_7 432000000).length
      = (logsForKey stF.logs "t" "s1" AlertRuleType.DAYS_7 432000000).length + 1) ∧
    (overdueLogsFor ((processOverdueAlerts [subS1] "t" [chanA] c1now1 c1now1 0 oracle200
        stO).toOption.map Prod.fst |>.getD st0).logs "t" "s1"
      = overdueLogsFor stO.logs "t" "s1") := by
  refine ⟨?_, ?_, ?_⟩
  · exact C1_dedup_amended.1 [subS1] "t" [chanA] 7 AlertRuleType.DAYS_7 (-140400000)
      (-140400000) 0 oracle200 stA _ "s1" 432000000 (by decide) (by decide) rfl
  · exact C1_dedup_amended.2.1 [subS1] "t" [chanA] 7 AlertRuleType.DAYS_7 (-140400000)
      (-140400000) 0 oracle200 stF _ subS1 (by decide) (by decide) (by decide) (by decide)
      (by decide) rfl
  · exact C1_dedup_amended.2.2 [subS1] "t" [chanA] c1now1 c1now1 0 oracle200 stO _
      (startOfDayAt 0 c1now1) "s1" (by decide) (by decide) rfl

/-- C1 (counterexample): for the Overdue rule the dedup key is not
(tenant, subscription, rule type, due date): running the daily pipeline
on two consecutive days over an overdue subscription produces two SENT
rows with the identical key — more than the claimed at-most-one. -/
theorem C1_counterexample :
    (c1run2.toOption.map fun st =>
      sentCountForKey st "t" "s1" AlertRuleType.OVERDUE 432000000) = some 2 := by
  decide
